import Mathlib

/-!
Verification development for the policy-list reconciliation engine in
`src/models/BanList.ts` (BanList, its reconciliation pass `updateList`,
the rule accessors, `unbanEntity`, and the `UpdateBatcher` coalescer).

JavaScript objects are embedded as Lean structures; JS truthiness on
strings is modelled explicitly (`truthy`): a missing key is `none`, a
present-but-empty string is `some ""` (falsy).  The two-level
`Map<string, Map<string, any>>` state table is embedded as a two-level
association list with JS `Map` insertion-order semantics (update in
place, insert at the end).
-/

set_option autoImplicit false

namespace BanListModel

/-! ## Constants (`BanList.ts` lines 21-34) -/

def RULE_USER : String := "m.policy.rule.user"
def RULE_ROOM : String := "m.policy.rule.room"
def RULE_SERVER : String := "m.policy.rule.server"

def USER_RULE_TYPES : List String := [RULE_USER, "m.room.rule.user", "org.matrix.mjolnir.rule.user"]
def ROOM_RULE_TYPES : List String := [RULE_ROOM, "m.room.rule.room", "org.matrix.mjolnir.rule.room"]
def SERVER_RULE_TYPES : List String := [RULE_SERVER, "m.room.rule.server", "org.matrix.mjolnir.rule.server"]
def ALL_RULE_TYPES : List String := USER_RULE_TYPES ++ ROOM_RULE_TYPES ++ SERVER_RULE_TYPES

def SHORTCODE_EVENT_TYPE : String := "org.matrix.mjolnir.shortcode"

/-- Modelled from the spec: the recommendation constant `RECOMMENDATION_BAN`
is imported from `./ListRule`, a file not present in the repository snapshot;
the spec describes the accessors as surfacing only rules with
recommendation = "ban". -/
def RECOMMENDATION_BAN : String := "ban"

/-- Modelled from the spec: the `ListRule` value object (from `./ListRule`,
not in the snapshot) is the derived PolicyRule value
`{entity, recommendation, reason, kind}`. -/
structure ListRule where
  entity : String
  recommendation : String
  reason : String
  kind : String
deriving DecidableEq, Repr

/-- The relevant keys of an event `content` object.  `extraKeys` records
whether any key other than the modelled ones is present (it matters only for
the `Object.keys(content).length === 0` emptiness test). -/
structure Content where
  entity : Option String
  recommendation : Option String
  reason : Option String
  shortcode : Option String
  extraKeys : Bool
deriving DecidableEq, Repr

/-- A state event as returned by `getRoomState`.  `redactedBecauseSender` is
`unsigned.redacted_because` collapsed to the only field the code reads from
it (`sender`); `unsignedRule` is the `unsigned.rule` slot that `updateList`
writes parsed rules into. -/
structure RawEvent where
  type : String
  state_key : String
  event_id : String
  sender : String
  content : Option Content
  redactedBecauseSender : Option String
  unsignedRule : Option ListRule
deriving DecidableEq, Repr

inductive ChangeType where
  | Added
  | Removed
  | Modified
deriving DecidableEq, Repr

/-- The change payload `ListRuleChange` (lines 49-72).  `previousState` is present iff the JS
spread `... previousState ? {previousState} : {}` added it. -/
structure ListRuleChange where
  changeType : ChangeType
  event : RawEvent
  sender : String
  rule : ListRule
  previousState : Option RawEvent
deriving DecidableEq, Repr

/-! ## The state table (`Map<string, Map<string, any>>`, lines 90, 118-136) -/

/-- First-match lookup in an association list (JS `Map.get`). -/
def lookupA {α : Type} : List (String × α) → String → Option α
  | [], _ => none
  | (k, v) :: rest, key => if k = key then some v else lookupA rest key

/-- JS `Map.set`: overwrite in place if the key is present, append otherwise. -/
def setA {α : Type} : List (String × α) → String → α → List (String × α)
  | [], key, v => [(key, v)]
  | (k, w) :: rest, key, v => if k = key then (k, v) :: rest else (k, w) :: setA rest key v

abbrev StateKeyMap := List (String × RawEvent)
abbrev StateTable := List (String × StateKeyMap)

/-- Lookup in the state table, `BanList.getState` (line 118). -/
def getState (st : StateTable) (stateType stateKey : String) : Option RawEvent :=
  match lookupA st stateType with
  | some tbl => lookupA tbl stateKey
  | none => none

/-- Store into the state table, `BanList.setState` (line 129): update the
key map of the type if one exists,
otherwise install a fresh one-entry map (`new Map().set(stateKey, event)`). -/
def setState (st : StateTable) (stateType stateKey : String) (event : RawEvent) : StateTable :=
  setA st stateType
    (match lookupA st stateType with
     | some tbl => setA tbl stateKey event
     | none => [(stateKey, event)])

/-- The mutable fields of a `BanList` that `updateList` touches. -/
structure BanListState where
  shortcode : Option String
  state : StateTable
deriving DecidableEq, Repr

/-! ## Helpers for the reconciliation pass -/

/-- JS truthiness of a possibly-missing string value. -/
def truthy : Option String → Bool
  | none => false
  | some s => s ≠ ""

/-- Kind resolution (lines 238-247): membership in the alias tables, checked
in the order user, room, server. -/
def kindOfType (t : String) : Option String :=
  if t ∈ USER_RULE_TYPES then some RULE_USER
  else if t ∈ ROOM_RULE_TYPES then some RULE_ROOM
  else if t ∈ SERVER_RULE_TYPES then some RULE_SERVER
  else none

/-- The alias table of a (normalised) kind. -/
def ruleTypesOf (kind : String) : List String :=
  if kind = RULE_USER then USER_RULE_TYPES
  else if kind = RULE_ROOM then ROOM_RULE_TYPES
  else if kind = RULE_SERVER then SERVER_RULE_TYPES
  else []

/-- JS `Array.indexOf`: position of the first occurrence, `-1` if absent. -/
def indexOfJS (l : List String) (x : String) : Int :=
  match l.findIdx? (fun y => y = x) with
  | some i => (i : Int)
  | none => -1

/-- The obsolete-type conflict test (lines 260-269): the incoming type has a
strictly larger alias-table index than the stored type, for the resolved
kind. -/
def obsoleteAgainst (kind eventType previousType : String) : Bool :=
  if kind = RULE_USER then
    indexOfJS USER_RULE_TYPES eventType > indexOfJS USER_RULE_TYPES previousType
  else if kind = RULE_ROOM then
    indexOfJS ROOM_RULE_TYPES eventType > indexOfJS ROOM_RULE_TYPES previousType
  else if kind = RULE_SERVER then
    indexOfJS SERVER_RULE_TYPES eventType > indexOfJS SERVER_RULE_TYPES previousType
  else false

/-- The JS emptiness test: `Object.keys(content)` has length zero. -/
def contentKeysEmpty (c : Content) : Bool :=
  c.entity.isNone && c.recommendation.isNone && c.reason.isNone
    && c.shortcode.isNone && !c.extraKeys

def contentEmptyJS : Option Content → Bool
  | none => true
  | some c => contentKeysEmpty c

/-- Change classification (lines 276-294). -/
def classify (previous : Option RawEvent) (e : RawEvent) : Option ChangeType :=
  match previous with
  | none => some ChangeType.Added
  | some p =>
    if p.event_id = e.event_id then
      if e.redactedBecauseSender.isSome then some ChangeType.Removed else none
    else
      if contentEmptyJS e.content then some ChangeType.Removed else some ChangeType.Modified

/-- The reason fallback (line 311): a falsy reason value (missing key or
empty string) becomes the placeholder reason. -/
def reasonOf (c : Content) : String :=
  match c.reason with
  | some r => if r = "" then "<no reason>" else r
  | none => "<no reason>"

/-- Whether the content fields parse as a rule: `entity` and `recommendation`
both truthy (line 313). -/
def parsesC (c : Content) : Bool :=
  truthy c.entity && truthy c.recommendation

def parsesE (e : RawEvent) : Bool :=
  match e.content with
  | none => false
  | some c => parsesC c

/-- Rule construction (line 316): the four content-derived fields. -/
def mkRule (kind : String) (c : Content) : ListRule :=
  ⟨c.entity.getD "", c.recommendation.getD "", reasonOf c, kind⟩

/-- The event as stored after the pass mutated `event.unsigned.rule` (line
317): the parsed rule is attached when the content parses. -/
def attachRule (kind : String) (e : RawEvent) : RawEvent :=
  match e.content with
  | none => e
  | some c => if parsesC c then { e with unsignedRule := some (mkRule kind c) } else e

/-- Actor attribution for a removal (line 299). -/
def removalSender (e : RawEvent) : String :=
  match e.redactedBecauseSender with
  | some rs => rs
  | none => e.sender

/-- Shortcode extraction (line 230): missing content or a falsy shortcode
value yields null. -/
def shortcodeOf (e : RawEvent) : Option String :=
  match e.content with
  | none => none
  | some c =>
    match c.shortcode with
    | some s => if s = "" then none else some s
    | none => none

/-- The rule-parsing tail of the loop body (lines 305-320).  `s1` is the
state after the unconditional `setState` of the raw event; on a successful
parse the stored event is the one with `unsigned.rule` attached (the JS code
mutates the already-stored object). -/
def parsePhase (s s1 : BanListState) (kind : String) (previous : Option RawEvent)
    (changeType : Option ChangeType) (e : RawEvent) : BanListState × List ListRuleChange :=
  match e.content with
  | none => (s1, [])
  | some c =>
    if parsesC c then
      let rule := mkRule kind c
      let e' : RawEvent := { e with unsignedRule := some rule }
      let s2 : BanListState := { s with state := setState s.state kind e.state_key e' }
      match changeType with
      | some ct => (s2, [⟨ct, e', e.sender, rule, previous⟩])
      | none => (s2, [])
    else (s1, [])

/-- The loop body of `updateList` for a recognised rule event (lines
249-320), after kind resolution. -/
def processRuleEvent (s : BanListState) (kind : String) (e : RawEvent) :
    BanListState × List ListRuleChange :=
  let previous := getState s.state kind e.state_key
  let discard : Bool :=
    match previous with
    | some p => obsoleteAgainst kind e.type p.type
    | none => false
  if discard then (s, [])
  else
    let s1 : BanListState := { s with state := setState s.state kind e.state_key e }
    let changeType := classify previous e
    let prevRule : Option ListRule :=
      match previous with
      | some p => p.unsignedRule
      | none => none
    match changeType, prevRule with
    | some ChangeType.Removed, some r =>
      (s1, [⟨ChangeType.Removed, e, removalSender e, r, previous⟩])
    | _, _ => parsePhase s s1 kind previous (classify previous e) e

/-- One iteration of the `for (const event of state)` loop (lines 228-321). -/
def processEvent (s : BanListState) (e : RawEvent) : BanListState × List ListRuleChange :=
  if e.state_key = "" ∧ e.type = SHORTCODE_EVENT_TYPE then
    ({ s with shortcode := shortcodeOf e }, [])
  else if e.state_key = "" ∨ e.type ∉ ALL_RULE_TYPES then
    (s, [])
  else
    match kindOfType e.type with
    | none => (s, [])
    | some kind => processRuleEvent s kind e

def processList : BanListState → List RawEvent → BanListState × List ListRuleChange
  | s, [] => (s, [])
  | s, e :: rest =>
    let r1 := processEvent s e
    let r2 := processList r1.1 rest
    (r2.1, r1.2 ++ r2.2)

/-- The reconciliation pass `BanList.updateList` (lines 224-324): fold the
fetched room state through
the loop body; the returned list is the emitted `ListRuleChange` sequence. -/
def updateList (s : BanListState) (roomState : List RawEvent) :
    BanListState × List ListRuleChange :=
  processList s roomState

/-! ## Rule accessors (`rulesOfKind`, lines 143-183) -/

def rulesOfKind (s : BanListState) (kind : String) : List ListRule :=
  match lookupA s.state kind with
  | none => []
  | some tbl =>
    (tbl.map Prod.snd).filterMap fun ev =>
      match ev.unsignedRule with
      | some rule =>
        if rule.kind = kind ∧ rule.recommendation = RECOMMENDATION_BAN then some rule else none
      | none => none

def serverRules (s : BanListState) : List ListRule := rulesOfKind s RULE_SERVER

def userRules (s : BanListState) : List ListRule := rulesOfKind s RULE_USER

def roomRules (s : BanListState) : List ListRule := rulesOfKind s RULE_ROOM

def allRules (s : BanListState) : List ListRule :=
  serverRules s ++ userRules s ++ roomRules s

/-! ## `unbanEntity` (lines 192-217)

The external store is passed in as oracles: `lookup` is
`client.getRoomStateEvent` for this room, `writeErr` gives the outcome of
`client.sendStateEvent` (`none` = success, `some err` = rejection). -/

inductive LookupResult where
  | found
  | notFound
  | failure (err : String)
deriving DecidableEq, Repr

/-- The writes actually issued (type, state key, content) and the boolean
result of `unbanEntity`. -/
structure UnbanOutcome where
  writes : List (String × String × Content)
  result : Bool
deriving DecidableEq, Repr

/-- The `switch (ruleType)` (lines 194-205): the three normalised kinds
expand to their alias family, anything else stays a singleton. -/
def typesToCheckFor (ruleType : String) : List String :=
  if ruleType = RULE_USER then USER_RULE_TYPES
  else if ruleType = RULE_SERVER then SERVER_RULE_TYPES
  else if ruleType = RULE_ROOM then ROOM_RULE_TYPES
  else [ruleType]

/-- The clearing write payload `{}`. -/
def emptyContent : Content := ⟨none, none, none, none, false⟩

def firstLookupFailure (lookup : String → String → LookupResult) (sk : String) :
    List String → Option String
  | [] => none
  | t :: ts =>
    match lookup t sk with
    | LookupResult.failure err => some err
    | _ => firstLookupFailure lookup sk ts

def firstWriteFailure (writeErr : String → String → Option String) (sk : String) :
    List String → Option String
  | [] => none
  | t :: ts =>
    match writeErr t sk with
    | some err => some err
    | none => firstWriteFailure writeErr sk ts

def isFound : LookupResult → Bool
  | LookupResult.found => true
  | _ => false

/-- The unban operation `BanList.unbanEntity` (lines 192-217): point
lookups over the alias family (a 404 maps
to absence, any other failure rejects the whole call), then a clearing write
for every type that held a record. -/
def unbanEntity (lookup : String → String → LookupResult)
    (writeErr : String → String → Option String)
    (ruleType entity : String) : Except String UnbanOutcome :=
  let stateKey := "rule:" ++ entity
  let typesToCheck := typesToCheckFor ruleType
  match firstLookupFailure lookup stateKey typesToCheck with
  | some err => Except.error err
  | none =>
    let typesToRemove := typesToCheck.filter fun t => isFound (lookup t stateKey)
    if typesToRemove.isEmpty then Except.ok ⟨[], false⟩
    else
      match firstWriteFailure writeErr stateKey typesToRemove with
      | some err => Except.error err
      | none => Except.ok ⟨typesToRemove.map fun t => (t, stateKey, emptyContent), true⟩

/-! ## `UpdateBatcher` (lines 341-396)

The coalescer is embedded with idealised discrete time: condition check
number `i` of the wait loop happens after sleep number `i`, at `i * waitPeriodMS`
milliseconds after the loop started; `latestAt i` is the value of
`this.latestEventId` at that moment (notifications land between sleeps). -/

def waitPeriodMS : Nat := 200
def maxWaitMS : Nat := 3000

structure BatcherState where
  isWaiting : Bool
  latestEventId : Option String
deriving DecidableEq, Repr

/-- Notification intake `UpdateBatcher.addToBatch` (lines 380-395):
returns the new state and
whether a new `checkBatch` wait loop was spawned. -/
def addToBatch (b : BatcherState) (eventId : String) : BatcherState × Bool :=
  if b.isWaiting then ({ b with latestEventId := some eventId }, false)
  else ({ isWaiting := true, latestEventId := some eventId }, true)

/-- The do/while of `checkBatch` (lines 369-371): starting from check `i`,
return the index of the check at which the loop exits.  The loop continues
while `elapsed < maxWaitMS && latestEventId !== eventId`; the fuel only
bounds recursion depth and is taken large enough never to bind. -/
def checkBatchIterAux (eventId : String) (latestAt : Nat → Option String) :
    Nat → Nat → Nat
  | 0, i => i
  | fuel + 1, i =>
    if i * waitPeriodMS < maxWaitMS ∧ latestAt i ≠ some eventId then
      checkBatchIterAux eventId latestAt fuel (i + 1)
    else i

def checkBatchIters (eventId : String) (latestAt : Nat → Option String) : Nat :=
  checkBatchIterAux eventId latestAt maxWaitMS 1

/-- Observable outcome of one `checkBatch` run: when it exits, how many
polls it made, the batcher state after `reset()`, and how many
`BanList.batch` emissions it fired. -/
structure CheckBatchOutcome where
  iters : Nat
  exitTimeMS : Nat
  stateAfter : BatcherState
  batchEmits : Nat
deriving DecidableEq, Repr

/-- The wait loop driver `UpdateBatcher.checkBatch` (lines 367-374): poll
until the exit
condition, then `reset()` and emit exactly one batch signal. -/
def checkBatch (eventId : String) (latestAt : Nat → Option String) : CheckBatchOutcome :=
  let n := checkBatchIters eventId latestAt
  ⟨n, n * waitPeriodMS, ⟨false, none⟩, 1⟩

/-! ## Association-list and state-table lemmas -/

theorem lookupA_setA_self {α : Type} (l : List (String × α)) (k : String) (v : α) :
    lookupA (setA l k v) k = some v := by
  induction l with
  | nil => simp [setA, lookupA]
  | cons hd tl ih =>
    obtain ⟨k1, v1⟩ := hd
    by_cases h : k1 = k
    · simp [setA, h, lookupA]
    · simp [setA, h, lookupA, ih]

theorem lookupA_setA_ne {α : Type} (l : List (String × α)) (k k' : String) (v : α)
    (h : k' ≠ k) : lookupA (setA l k v) k' = lookupA l k' := by
  have h' : k ≠ k' := Ne.symm h
  induction l with
  | nil => simp [setA, lookupA, h']
  | cons hd tl ih =>
    obtain ⟨k1, v1⟩ := hd
    by_cases h1 : k1 = k
    · subst h1
      simp [setA, lookupA, h']
    · simp [setA, h1, lookupA, ih]

theorem setA_self {α : Type} (l : List (String × α)) (k : String) (v : α)
    (h : lookupA l k = some v) : setA l k v = l := by
  induction l with
  | nil => simp [lookupA] at h
  | cons hd tl ih =>
    obtain ⟨k1, v1⟩ := hd
    by_cases h1 : k1 = k
    · subst h1
      simp [lookupA] at h
      simp [setA, h]
    · simp [lookupA, h1] at h
      simp [setA, h1, ih h]

theorem getState_setState_self (st : StateTable) (t k : String) (e : RawEvent) :
    getState (setState st t k e) t k = some e := by
  unfold setState getState
  rw [lookupA_setA_self]
  cases hh : lookupA st t with
  | some tbl => simp only [hh]; exact lookupA_setA_self tbl k e
  | none => simp only [hh]; simp [lookupA]

theorem getState_setState_ne (st : StateTable) (t k t' k' : String) (e : RawEvent)
    (h : t' ≠ t ∨ k' ≠ k) : getState (setState st t k e) t' k' = getState st t' k' := by
  unfold setState getState
  by_cases ht : t' = t
  · subst ht
    have hk : k' ≠ k := h.resolve_left fun hh => hh rfl
    rw [lookupA_setA_self]
    cases hh : lookupA st t' with
    | some tbl => simp only [hh]; exact lookupA_setA_ne tbl k k' e hk
    | none => simp only [hh]; simp [lookupA, Ne.symm hk]
  · rw [lookupA_setA_ne st t t' _ ht]

theorem setState_self (st : StateTable) (t k : String) (e : RawEvent)
    (h : getState st t k = some e) : setState st t k e = st := by
  unfold getState at h
  unfold setState
  cases hh : lookupA st t with
  | some tbl =>
    simp only [hh] at h ⊢
    rw [setA_self tbl k e h, setA_self st t tbl hh]
  | none =>
    simp only [hh] at h
    exact Option.noConfusion h

/-! ## Alias-table lemmas -/

theorem kindOfType_mem_all {t kind : String} (h : kindOfType t = some kind) :
    t ∈ ALL_RULE_TYPES := by
  unfold kindOfType at h
  unfold ALL_RULE_TYPES
  rw [List.mem_append, List.mem_append]
  by_cases h1 : t ∈ USER_RULE_TYPES
  · exact Or.inl (Or.inl h1)
  · by_cases h2 : t ∈ ROOM_RULE_TYPES
    · exact Or.inl (Or.inr h2)
    · by_cases h3 : t ∈ SERVER_RULE_TYPES
      · exact Or.inr h3
      · rw [if_neg h1, if_neg h2, if_neg h3] at h
        exact absurd h (by simp)

theorem mem_all_kindOfType {t : String} (h : t ∈ ALL_RULE_TYPES) :
    ∃ kind, kindOfType t = some kind := by
  unfold ALL_RULE_TYPES at h
  rw [List.mem_append, List.mem_append] at h
  unfold kindOfType
  by_cases h1 : t ∈ USER_RULE_TYPES
  · exact ⟨RULE_USER, by rw [if_pos h1]⟩
  · by_cases h2 : t ∈ ROOM_RULE_TYPES
    · exact ⟨RULE_ROOM, by rw [if_neg h1, if_pos h2]⟩
    · by_cases h3 : t ∈ SERVER_RULE_TYPES
      · exact ⟨RULE_SERVER, by rw [if_neg h1, if_neg h2, if_pos h3]⟩
      · rcases h with (h | h) | h
        · exact absurd h h1
        · exact absurd h h2
        · exact absurd h h3

theorem kindOfType_cases {t kind : String} (h : kindOfType t = some kind) :
    kind = RULE_USER ∨ kind = RULE_ROOM ∨ kind = RULE_SERVER := by
  unfold kindOfType at h
  by_cases h1 : t ∈ USER_RULE_TYPES
  · rw [if_pos h1] at h; exact Or.inl (Option.some.inj h).symm
  · by_cases h2 : t ∈ ROOM_RULE_TYPES
    · rw [if_neg h1, if_pos h2] at h; exact Or.inr (Or.inl (Option.some.inj h).symm)
    · by_cases h3 : t ∈ SERVER_RULE_TYPES
      · rw [if_neg h1, if_neg h2, if_pos h3] at h
        exact Or.inr (Or.inr (Option.some.inj h).symm)
      · rw [if_neg h1, if_neg h2, if_neg h3] at h
        exact absurd h (by simp)

theorem kindOfType_mem_ruleTypes {t kind : String} (h : kindOfType t = some kind) :
    t ∈ ruleTypesOf kind := by
  unfold kindOfType at h
  by_cases h1 : t ∈ USER_RULE_TYPES
  · rw [if_pos h1] at h
    obtain rfl : RULE_USER = kind := Option.some.inj h
    rw [(by decide : ruleTypesOf RULE_USER = USER_RULE_TYPES)]
    exact h1
  · by_cases h2 : t ∈ ROOM_RULE_TYPES
    · rw [if_neg h1, if_pos h2] at h
      obtain rfl : RULE_ROOM = kind := Option.some.inj h
      rw [(by decide : ruleTypesOf RULE_ROOM = ROOM_RULE_TYPES)]
      exact h2
    · by_cases h3 : t ∈ SERVER_RULE_TYPES
      · rw [if_neg h1, if_neg h2, if_pos h3] at h
        obtain rfl : RULE_SERVER = kind := Option.some.inj h
        rw [(by decide : ruleTypesOf RULE_SERVER = SERVER_RULE_TYPES)]
        exact h3
      · rw [if_neg h1, if_neg h2, if_neg h3] at h
        exact absurd h (by simp)

/-- For a resolved kind, the three-branch obsolete-type test of the code is
the index comparison over the alias table of that kind. -/
theorem obsoleteAgainst_eq {t kind : String} (h : kindOfType t = some kind)
    (a b : String) :
    obsoleteAgainst kind a b
      = decide (indexOfJS (ruleTypesOf kind) b < indexOfJS (ruleTypesOf kind) a) := by
  rcases kindOfType_cases h with rfl | rfl | rfl
  · rw [(by decide : ruleTypesOf RULE_USER = USER_RULE_TYPES)]
    unfold obsoleteAgainst
    rw [if_pos rfl]
  · rw [(by decide : ruleTypesOf RULE_ROOM = ROOM_RULE_TYPES)]
    unfold obsoleteAgainst
    rw [if_neg (by decide), if_pos rfl]
  · rw [(by decide : ruleTypesOf RULE_SERVER = SERVER_RULE_TYPES)]
    unfold obsoleteAgainst
    rw [if_neg (by decide), if_neg (by decide), if_pos rfl]

/-! ## Per-event facts -/

theorem attachRule_of_content_none {kind : String} {e : RawEvent} (h : e.content = none) :
    attachRule kind e = e := by
  unfold attachRule
  rw [h]

theorem attachRule_of_not_parsesC {kind : String} {e : RawEvent} {c : Content}
    (hc : e.content = some c) (h : parsesC c = false) : attachRule kind e = e := by
  unfold attachRule
  simp [hc, h]

theorem attachRule_of_parsesC {kind : String} {e : RawEvent} {c : Content}
    (hc : e.content = some c) (h : parsesC c = true) :
    attachRule kind e = { e with unsignedRule := some (mkRule kind c) } := by
  unfold attachRule
  simp [hc, h]

theorem attachRule_of_not_parses {kind : String} {e : RawEvent} (h : parsesE e = false) :
    attachRule kind e = e := by
  unfold parsesE at h
  cases hc : e.content with
  | none => exact attachRule_of_content_none hc
  | some c => rw [hc] at h; exact attachRule_of_not_parsesC hc h

theorem attachRule_type (kind : String) (e : RawEvent) : (attachRule kind e).type = e.type := by
  unfold attachRule
  cases hc : e.content with
  | none => rfl
  | some c =>
    by_cases hp : parsesC c = true
    · simp [hp]
    · simp [hp]

theorem attachRule_event_id (kind : String) (e : RawEvent) :
    (attachRule kind e).event_id = e.event_id := by
  unfold attachRule
  cases hc : e.content with
  | none => rfl
  | some c =>
    by_cases hp : parsesC c = true
    · simp [hp]
    · simp [hp]

theorem contentEmpty_not_parses {e : RawEvent} (h : contentEmptyJS e.content = true) :
    parsesE e = false := by
  unfold contentEmptyJS at h
  unfold parsesE
  cases hc : e.content with
  | none => rfl
  | some c =>
    rw [hc] at h
    have h' : contentKeysEmpty c = true := h
    unfold contentKeysEmpty at h'
    show parsesC c = false
    unfold parsesC
    cases hce : c.entity with
    | none => simp [truthy, hce]
    | some str => rw [hce] at h'; simp at h'

theorem classify_removed_not_parses {p e : RawEvent}
    (h : classify (some p) e = some ChangeType.Removed)
    (he : e.redactedBecauseSender.isSome = true → parsesE e = false) : parsesE e = false := by
  have h' : (if p.event_id = e.event_id then
        (if e.redactedBecauseSender.isSome = true then some ChangeType.Removed else none)
      else
        (if contentEmptyJS e.content = true then some ChangeType.Removed
          else some ChangeType.Modified)) = some ChangeType.Removed := h
  by_cases hid : p.event_id = e.event_id
  · rw [if_pos hid] at h'
    by_cases hred : e.redactedBecauseSender.isSome = true
    · exact he hred
    · rw [if_neg hred] at h'
      exact absurd h' (by simp)
  · rw [if_neg hid] at h'
    by_cases hemp : contentEmptyJS e.content = true
    · exact contentEmpty_not_parses hemp
    · rw [if_neg hemp] at h'
      exact absurd h' (by simp)

theorem parsePhase_of_not_parses (s s1 : BanListState) (kind : String)
    (prev : Option RawEvent) (ct : Option ChangeType) (e : RawEvent)
    (h : parsesE e = false) : parsePhase s s1 kind prev ct e = (s1, []) := by
  unfold parsesE at h
  unfold parsePhase
  cases hc : e.content with
  | none => rfl
  | some c =>
    rw [hc] at h
    have h' : parsesC c = false := h
    simp [h']

/-! ## Dispatch lemmas for `processEvent` -/

theorem processEvent_rule (s : BanListState) (e : RawEvent) (kind : String)
    (hsk : e.state_key ≠ "") (hk : kindOfType e.type = some kind) :
    processEvent s e = processRuleEvent s kind e := by
  unfold processEvent
  rw [if_neg (fun hh => hsk hh.1),
    if_neg (fun hh => hh.elim hsk fun hn => hn (kindOfType_mem_all hk)), hk]

theorem processEvent_shortcode (s : BanListState) (e : RawEvent)
    (h1 : e.state_key = "") (h2 : e.type = SHORTCODE_EVENT_TYPE) :
    processEvent s e = ({ s with shortcode := shortcodeOf e }, []) := by
  unfold processEvent
  rw [if_pos ⟨h1, h2⟩]

theorem processEvent_skip (s : BanListState) (e : RawEvent)
    (hns : ¬(e.state_key = "" ∧ e.type = SHORTCODE_EVENT_TYPE))
    (h : e.state_key = "" ∨ e.type ∉ ALL_RULE_TYPES) : processEvent s e = (s, []) := by
  unfold processEvent
  rw [if_neg hns, if_pos h]

/-- Every loop iteration either leaves the rule table untouched and emits
nothing, or is the rule-event body for the resolved kind. -/
theorem processEvent_cases (s : BanListState) (e : RawEvent) :
    ((processEvent s e).1.state = s.state ∧ (processEvent s e).2 = [])
      ∨ ∃ kind, kindOfType e.type = some kind ∧ e.state_key ≠ ""
          ∧ processEvent s e = processRuleEvent s kind e := by
  by_cases h1 : e.state_key = "" ∧ e.type = SHORTCODE_EVENT_TYPE
  · left
    rw [processEvent_shortcode s e h1.1 h1.2]
    exact ⟨rfl, rfl⟩
  · by_cases h2 : e.state_key = "" ∨ e.type ∉ ALL_RULE_TYPES
    · left
      rw [processEvent_skip s e h1 h2]
      exact ⟨rfl, rfl⟩
    · right
      push_neg at h2
      obtain ⟨hsk, hmem⟩ := h2
      obtain ⟨kind, hk⟩ := mem_all_kindOfType hmem
      exact ⟨kind, hk, hsk, processEvent_rule s e kind hsk hk⟩

/-- Within one alias table, the JS index determines the member. -/
theorem indexOfJS_inj {kind t a b : String} (h : kindOfType t = some kind)
    (ha : a ∈ ruleTypesOf kind) (hb : b ∈ ruleTypesOf kind)
    (hi : indexOfJS (ruleTypesOf kind) a = indexOfJS (ruleTypesOf kind) b) : a = b := by
  rcases kindOfType_cases h with rfl | rfl | rfl
  · rw [(by decide : ruleTypesOf RULE_USER = USER_RULE_TYPES)] at ha hb hi
    simp only [USER_RULE_TYPES, List.mem_cons, List.not_mem_nil, or_false] at ha hb
    rcases ha with rfl | rfl | rfl <;> rcases hb with rfl | rfl | rfl <;>
      first
        | rfl
        | exact absurd hi (by decide)
  · rw [(by decide : ruleTypesOf RULE_ROOM = ROOM_RULE_TYPES)] at ha hb hi
    simp only [ROOM_RULE_TYPES, List.mem_cons, List.not_mem_nil, or_false] at ha hb
    rcases ha with rfl | rfl | rfl <;> rcases hb with rfl | rfl | rfl <;>
      first
        | rfl
        | exact absurd hi (by decide)
  · rw [(by decide : ruleTypesOf RULE_SERVER = SERVER_RULE_TYPES)] at ha hb hi
    simp only [SERVER_RULE_TYPES, List.mem_cons, List.not_mem_nil, or_false] at ha hb
    rcases ha with rfl | rfl | rfl <;> rcases hb with rfl | rfl | rfl <;>
      first
        | rfl
        | exact absurd hi (by decide)

/-! ## Shape lemmas for `processRuleEvent` -/

theorem processRuleEvent_discard (s : BanListState) (kind : String) (e p : RawEvent)
    (hp : getState s.state kind e.state_key = some p)
    (hobs : obsoleteAgainst kind e.type p.type = true) :
    processRuleEvent s kind e = (s, []) := by
  unfold processRuleEvent
  simp [hp, hobs]

theorem parsePhase_fst (s : BanListState) (kind : String) (prev : Option RawEvent)
    (ct : Option ChangeType) (e : RawEvent) :
    (parsePhase s { s with state := setState s.state kind e.state_key e } kind prev ct e).1
      = { s with state := setState s.state kind e.state_key (attachRule kind e) } := by
  cases hc : e.content with
  | none =>
    rw [attachRule_of_content_none hc]
    simp [parsePhase, hc]
  | some c =>
    by_cases hp : parsesC c = true
    · rw [attachRule_of_parsesC hc hp]
      cases ct <;> simp [parsePhase, hc, hp]
    · have hp' : parsesC c = false := by revert hp; cases parsesC c <;> simp
      rw [attachRule_of_not_parsesC hc hp']
      simp [parsePhase, hc, hp']

theorem processRuleEvent_accept_fst (s : BanListState) (kind : String) (e : RawEvent)
    (he : e.redactedBecauseSender.isSome = true → parsesE e = false)
    (hnd : (match getState s.state kind e.state_key with
            | some p => obsoleteAgainst kind e.type p.type
            | none => false) = false) :
    (processRuleEvent s kind e).1
      = { s with state := setState s.state kind e.state_key (attachRule kind e) } := by
  cases hgp : getState s.state kind e.state_key with
  | none =>
    have hdisp : processRuleEvent s kind e
        = parsePhase s { s with state := setState s.state kind e.state_key e } kind
            none (classify none e) e := by
      unfold processRuleEvent
      simp [hgp, classify]
    rw [hdisp, parsePhase_fst]
  | some p =>
    rw [hgp] at hnd
    have hnd' : obsoleteAgainst kind e.type p.type = false := hnd
    cases hcl : classify (some p) e with
    | none =>
      have hdisp : processRuleEvent s kind e
          = parsePhase s { s with state := setState s.state kind e.state_key e } kind
              (some p) (classify (some p) e) e := by
        unfold processRuleEvent
        simp [hgp, hnd', hcl]
      rw [hdisp, parsePhase_fst]
    | some ct =>
      cases ct with
      | Added =>
        have hdisp : processRuleEvent s kind e
            = parsePhase s { s with state := setState s.state kind e.state_key e } kind
                (some p) (classify (some p) e) e := by
          unfold processRuleEvent
          simp [hgp, hnd', hcl]
        rw [hdisp, parsePhase_fst]
      | Modified =>
        have hdisp : processRuleEvent s kind e
            = parsePhase s { s with state := setState s.state kind e.state_key e } kind
                (some p) (classify (some p) e) e := by
          unfold processRuleEvent
          simp [hgp, hnd', hcl]
        rw [hdisp, parsePhase_fst]
      | Removed =>
        have hnp : parsesE e = false := classify_removed_not_parses hcl he
        rw [attachRule_of_not_parses hnp]
        cases hpr : p.unsignedRule with
        | some r =>
          unfold processRuleEvent
          simp [hgp, hnd', hcl, hpr]
        | none =>
          have hdisp : processRuleEvent s kind e
              = parsePhase s { s with state := setState s.state kind e.state_key e } kind
                  (some p) (classify (some p) e) e := by
            unfold processRuleEvent
            simp [hgp, hnd', hcl, hpr]
          rw [hdisp, parsePhase_of_not_parses _ _ _ _ _ _ hnp]

/-! ## Idempotence machinery

A rule event is *settled* in a state table when the stored record for its
slot is either the event itself (with its parsed rule attached) or a record
of strictly higher authority.  A reconciliation pass leaves every incoming
record settled, and a pass over settled records is a no-op. -/

def settledFor (st : StateTable) (e : RawEvent) (kind : String) : Prop :=
  ∃ w, getState st kind e.state_key = some w ∧
    (w = attachRule kind e ∨
      indexOfJS (ruleTypesOf kind) w.type < indexOfJS (ruleTypesOf kind) e.type)

theorem parsePhase_snd_none (s s1 : BanListState) (kind : String)
    (prev : Option RawEvent) (e : RawEvent) :
    (parsePhase s s1 kind prev none e).2 = [] := by
  cases hc : e.content with
  | none => simp [parsePhase, hc]
  | some c => by_cases hp : parsesC c = true <;> simp [parsePhase, hc, hp]

/-- A settled rule event is re-processed without any state change or
emission. -/
theorem processRuleEvent_settled (s : BanListState) (kind : String) (e : RawEvent)
    (hk : kindOfType e.type = some kind)
    (hr : e.unsignedRule = none)
    (he : e.redactedBecauseSender.isSome = true → parsesE e = false)
    (hs : settledFor s.state e kind) :
    processRuleEvent s kind e = (s, []) := by
  obtain ⟨w, hw, hcase⟩ := hs
  rcases hcase with hattach | hlt
  · subst hattach
    have htyp : (attachRule kind e).type = e.type := attachRule_type kind e
    have hid : (attachRule kind e).event_id = e.event_id := attachRule_event_id kind e
    have hobs : obsoleteAgainst kind e.type (attachRule kind e).type = false := by
      rw [htyp, obsoleteAgainst_eq hk]
      simp
    by_cases hred : e.redactedBecauseSender.isSome = true
    · have hnp : parsesE e = false := he hred
      have hae : attachRule kind e = e := attachRule_of_not_parses hnp
      have hwe : getState s.state kind e.state_key = some e := by
        rw [hae] at hw
        exact hw
      have hcl : classify (some (attachRule kind e)) e = some ChangeType.Removed := by
        have hcl' : (if (attachRule kind e).event_id = e.event_id then
              (if e.redactedBecauseSender.isSome = true then some ChangeType.Removed else none)
            else
              (if contentEmptyJS e.content = true then some ChangeType.Removed
                else some ChangeType.Modified)) = some ChangeType.Removed := by
          rw [if_pos hid, if_pos hred]
        exact hcl'
      have hpr : (attachRule kind e).unsignedRule = none := by rw [hae]; exact hr
      have hdisp : processRuleEvent s kind e
          = parsePhase s { s with state := setState s.state kind e.state_key e } kind
              (some (attachRule kind e)) (classify (some (attachRule kind e)) e) e := by
        unfold processRuleEvent
        simp [hw, hobs, hcl, hpr]
      rw [hdisp, parsePhase_of_not_parses _ _ _ _ _ _ hnp,
        setState_self _ _ _ _ hwe]
    · have hredf : e.redactedBecauseSender.isSome = false := by
        revert hred; cases e.redactedBecauseSender.isSome <;> simp
      have hcl : classify (some (attachRule kind e)) e = none := by
        have hcl' : (if (attachRule kind e).event_id = e.event_id then
              (if e.redactedBecauseSender.isSome = true then some ChangeType.Removed else none)
            else
              (if contentEmptyJS e.content = true then some ChangeType.Removed
                else some ChangeType.Modified)) = (none : Option ChangeType) := by
          rw [if_pos hid, if_neg (by simp [hredf])]
        exact hcl'
      have hdisp : processRuleEvent s kind e
          = parsePhase s { s with state := setState s.state kind e.state_key e } kind
              (some (attachRule kind e)) (classify (some (attachRule kind e)) e) e := by
        unfold processRuleEvent
        simp [hw, hobs, hcl]
      rw [hdisp, hcl, Prod.ext_iff]
      constructor
      · rw [parsePhase_fst, setState_self _ _ _ _ hw]
      · exact parsePhase_snd_none _ _ _ _ _
  · have hobs : obsoleteAgainst kind e.type w.type = true := by
      rw [obsoleteAgainst_eq hk]
      simpa using hlt
    exact processRuleEvent_discard s kind e w hw hobs

/-- Processing another event of the fetched room state (distinct
(type, state key) pair) keeps a settled event settled. -/
theorem settled_preserved_step (s : BanListState) (e' e : RawEvent) (kind : String)
    (hk : kindOfType e.type = some kind)
    (he' : e'.redactedBecauseSender.isSome = true → parsesE e' = false)
    (hne : e'.type ≠ e.type ∨ e'.state_key ≠ e.state_key)
    (hs : settledFor s.state e kind) :
    settledFor (processEvent s e').1.state e kind := by
  rcases processEvent_cases s e' with ⟨hst, _⟩ | ⟨kind', hk', hsk', heq⟩
  · rw [hst]; exact hs
  · rw [heq]
    by_cases hd : (match getState s.state kind' e'.state_key with
        | some p => obsoleteAgainst kind' e'.type p.type
        | none => false) = true
    · cases hp : getState s.state kind' e'.state_key with
      | none => rw [hp] at hd; exact absurd hd (by simp)
      | some p =>
        rw [hp] at hd
        rw [processRuleEvent_discard s kind' e' p hp hd]
        exact hs
    · have hd' : (match getState s.state kind' e'.state_key with
          | some p => obsoleteAgainst kind' e'.type p.type
          | none => false) = false := by
        revert hd
        cases (match getState s.state kind' e'.state_key with
          | some p => obsoleteAgainst kind' e'.type p.type
          | none => false) <;> simp
      rw [processRuleEvent_accept_fst s kind' e' he' hd']
      show settledFor (setState s.state kind' e'.state_key (attachRule kind' e')) e kind
      obtain ⟨w, hw, hcase⟩ := hs
      by_cases hslot : kind' = kind ∧ e'.state_key = e.state_key
      · obtain ⟨rfl, hkey⟩ := hslot
        have htype : e'.type ≠ e.type := by
          rcases hne with h | h
          · exact h
          · exact absurd hkey h
        have hw' : getState s.state kind' e'.state_key = some w := by rw [hkey]; exact hw
        have hobs : obsoleteAgainst kind' e'.type w.type = false := by
          rw [hw'] at hd'; exact hd'
        have hle : indexOfJS (ruleTypesOf kind') e'.type
            ≤ indexOfJS (ruleTypesOf kind') w.type := by
          rw [obsoleteAgainst_eq hk'] at hobs
          simpa using of_decide_eq_false hobs
        have hwe : indexOfJS (ruleTypesOf kind') w.type
            ≤ indexOfJS (ruleTypesOf kind') e.type := by
          rcases hcase with rfl | hlt2
          · rw [attachRule_type]
          · exact le_of_lt hlt2
        have hlt : indexOfJS (ruleTypesOf kind') e'.type
            < indexOfJS (ruleTypesOf kind') e.type := by
          rcases lt_or_eq_of_le (le_trans hle hwe) with h | h
          · exact h
          · exact absurd (indexOfJS_inj hk' (kindOfType_mem_ruleTypes hk')
              (kindOfType_mem_ruleTypes hk) h) htype
        refine ⟨attachRule kind' e', ?_, Or.inr ?_⟩
        · rw [← hkey]
          exact getState_setState_self _ _ _ _
        · rw [attachRule_type]
          exact hlt
      · refine ⟨w, ?_, hcase⟩
        rw [getState_setState_ne]
        · exact hw
        · by_cases hkk : kind' = kind
          · right
            intro hh
            exact hslot ⟨hkk, hh.symm⟩
          · left
            intro hh
            exact hkk hh.symm

/-- Settledness of an event is preserved across a whole pass over records
that all differ from it in (type, state key). -/
theorem settled_preserved_list (evs : List RawEvent) (e : RawEvent) (kind : String)
    (hk : kindOfType e.type = some kind) :
    ∀ s : BanListState,
    (∀ x ∈ evs, x.redactedBecauseSender.isSome = true → parsesE x = false) →
    (∀ x ∈ evs, x.type ≠ e.type ∨ x.state_key ≠ e.state_key) →
    settledFor s.state e kind → settledFor (processList s evs).1.state e kind := by
  induction evs with
  | nil =>
    intro s _ _ hs
    simpa [processList] using hs
  | cons e' rest ih =>
    intro s hR hD hs
    have hstep := settled_preserved_step s e' e kind hk (hR e' (by simp)) (hD e' (by simp)) hs
    have hrest := ih (processEvent s e').1 (fun x hx => hR x (by simp [hx]))
      (fun x hx => hD x (by simp [hx])) hstep
    simpa [processList] using hrest

/-- After a reconciliation pass, every rule record of the fetched room
state is settled in the resulting table. -/
theorem run_establishes (evs : List RawEvent) :
    ∀ s : BanListState,
    evs.Pairwise (fun a b => a.type ≠ b.type ∨ a.state_key ≠ b.state_key) →
    (∀ x ∈ evs, x.redactedBecauseSender.isSome = true → parsesE x = false) →
    ∀ e ∈ evs, ∀ kind, kindOfType e.type = some kind → e.state_key ≠ "" →
      settledFor (processList s evs).1.state e kind := by
  induction evs with
  | nil =>
    intro s _ _ e he
    exact absurd he (List.not_mem_nil e)
  | cons e0 rest ih =>
    intro s hpw hR e he kind hk hsk
    rw [List.pairwise_cons] at hpw
    obtain ⟨hrel, hpw'⟩ := hpw
    rcases List.mem_cons.mp he with rfl | hmem
    · have hred : e.redactedBecauseSender.isSome = true → parsesE e = false := hR e (by simp)
      have hsettled : settledFor (processEvent s e).1.state e kind := by
        rw [processEvent_rule s e kind hsk hk]
        by_cases hd : (match getState s.state kind e.state_key with
            | some p => obsoleteAgainst kind e.type p.type
            | none => false) = true
        · cases hp0 : getState s.state kind e.state_key with
          | none => rw [hp0] at hd; exact absurd hd (by simp)
          | some p =>
            rw [hp0] at hd
            rw [processRuleEvent_discard s kind e p hp0 hd]
            refine ⟨p, hp0, Or.inr ?_⟩
            have hd2 : obsoleteAgainst kind e.type p.type = true := hd
            rw [obsoleteAgainst_eq hk] at hd2
            exact of_decide_eq_true hd2
        · have hd' : (match getState s.state kind e.state_key with
              | some p => obsoleteAgainst kind e.type p.type
              | none => false) = false := by
            revert hd
            cases (match getState s.state kind e.state_key with
              | some p => obsoleteAgainst kind e.type p.type
              | none => false) <;> simp
          rw [processRuleEvent_accept_fst s kind e hred hd']
          exact ⟨attachRule kind e, getState_setState_self _ _ _ _, Or.inl rfl⟩
      have hpres := settled_preserved_list rest e kind hk (processEvent s e).1
        (fun x hx => hR x (by simp [hx]))
        (fun x hx => (hrel x hx).imp Ne.symm Ne.symm)
        hsettled
      simpa [processList] using hpres
    · have := ih (processEvent s e0).1 hpw' (fun x hx => hR x (by simp [hx])) e hmem kind hk hsk
      simpa [processList] using this

/-- A pass over records that are all already settled emits nothing and
leaves the rule table unchanged. -/
theorem run_noop (evs : List RawEvent) :
    ∀ s : BanListState,
    (∀ x ∈ evs, x.unsignedRule = none) →
    (∀ x ∈ evs, x.redactedBecauseSender.isSome = true → parsesE x = false) →
    (∀ x ∈ evs, ∀ kind, kindOfType x.type = some kind → x.state_key ≠ "" →
      settledFor s.state x kind) →
    (processList s evs).2 = [] ∧ (processList s evs).1.state = s.state := by
  induction evs with
  | nil =>
    intro s _ _ _
    exact ⟨rfl, rfl⟩
  | cons e0 rest ih =>
    intro s hU hR hS
    rcases processEvent_cases s e0 with ⟨hst, hch⟩ | ⟨kind, hk, hsk, heq⟩
    · have hrest := ih (processEvent s e0).1 (fun x hx => hU x (by simp [hx]))
        (fun x hx => hR x (by simp [hx]))
        (fun x hx kind hk hsk => by
          rw [hst]
          exact hS x (by simp [hx]) kind hk hsk)
      obtain ⟨h2, h1⟩ := hrest
      constructor
      · simp [processList, hch, h2]
      · simp [processList, h1, hst]
    · have heq2 : processEvent s e0 = (s, []) := by
        rw [heq]
        exact processRuleEvent_settled s kind e0 hk (hU e0 (by simp)) (hR e0 (by simp))
          (hS e0 (by simp) kind hk hsk)
      have hrest := ih s (fun x hx => hU x (by simp [hx]))
        (fun x hx => hR x (by simp [hx]))
        (fun x hx kind' hk' hsk' => hS x (by simp [hx]) kind' hk' hsk')
      obtain ⟨h2, h1⟩ := hrest
      constructor
      · simp [processList, heq2, h2]
      · simp [processList, heq2, h1]

/-! ## Concrete records used by the witnesses -/

def emptyBanList : BanListState := ⟨none, []⟩

/-- A valid user ban record of the current standard type. -/
def exEventA : RawEvent :=
  ⟨RULE_USER, "rule:@bad:example.org", "$a1", "@mod:example.org",
    some ⟨some "@bad:example.org", some "ban", some "spam", none, false⟩, none, none⟩

/-- A record for the same subkey under the oldest (lowest-authority) alias. -/
def exEventLegacy : RawEvent :=
  ⟨"org.matrix.mjolnir.rule.user", "rule:@bad:example.org", "$a2", "@mod:example.org",
    some ⟨some "@bad:example.org", some "ban", none, none, false⟩, none, none⟩

/-- The record `exEventA` as stored after a pass: parsed rule attached. -/
def exStoredStd : RawEvent :=
  ⟨RULE_USER, "rule:@bad:example.org", "$a1", "@mod:example.org",
    some ⟨some "@bad:example.org", some "ban", some "spam", none, false⟩, none,
    some ⟨"@bad:example.org", "ban", "spam", RULE_USER⟩⟩

def exListWithStd : BanListState :=
  ⟨none, [(RULE_USER, [("rule:@bad:example.org", exStoredStd)])]⟩

/-- The stored record reappearing with redaction info (hard delete). -/
def exRedactionOfStd : RawEvent :=
  ⟨RULE_USER, "rule:@bad:example.org", "$a1", "@mod:example.org",
    some ⟨none, none, none, none, false⟩, some "@admin:example.org", none⟩

/-- A fresh empty-content record for the same subkey (soft delete). -/
def exSoftDelete : RawEvent :=
  ⟨RULE_USER, "rule:@bad:example.org", "$a3", "@mod:example.org",
    some ⟨none, none, none, none, false⟩, none, none⟩

/-- A stored record that never carried a valid rule. -/
def exPrevInvalid : RawEvent :=
  ⟨RULE_USER, "rule:@x:example.org", "$b1", "@mod:example.org",
    some ⟨none, none, none, none, false⟩, none, none⟩

/-- The same recordId reappearing redacted, but with content that still
parses as a rule. -/
def exRedactedParseable : RawEvent :=
  ⟨RULE_USER, "rule:@x:example.org", "$b1", "@mod:example.org",
    some ⟨some "@x:example.org", some "ban", none, none, false⟩,
    some "@admin:example.org", none⟩

/-- Another never-valid record on the same subkey (different recordId). -/
def exInvalidAgain : RawEvent :=
  ⟨RULE_USER, "rule:@x:example.org", "$b2", "@mod:example.org",
    some ⟨none, none, none, none, false⟩, none, none⟩

def exListWithInvalid : BanListState :=
  ⟨none, [(RULE_USER, [("rule:@x:example.org", exPrevInvalid)])]⟩

/-! ## Claim C1 -/

/-- C1: during a reconciliation pass, whenever a record is already stored for
the same (kind, subkey) and the incoming record has a type with a larger
alias-table index (lower authority) than the type of the stored record for that
kind, the incoming record is discarded entirely: the state (and in
particular the stored record) is unchanged and no ChangeEvent is emitted. -/
theorem obsolete_record_discarded (s : BanListState) (e p : RawEvent) (kind : String)
    (hsk : e.state_key ≠ "")
    (hk : kindOfType e.type = some kind)
    (hp : getState s.state kind e.state_key = some p)
    (hidx : indexOfJS (ruleTypesOf kind) p.type < indexOfJS (ruleTypesOf kind) e.type) :
    processEvent s e = (s, []) := by
  rw [processEvent_rule s e kind hsk hk]
  exact processRuleEvent_discard s kind e p hp
    (by rw [obsoleteAgainst_eq hk]; exact decide_eq_true hidx)

theorem obsolete_record_discarded_witness :
    processEvent exListWithStd exEventLegacy = (exListWithStd, []) :=
  obsolete_record_discarded exListWithStd exEventLegacy exStoredStd RULE_USER
    (by decide) (by decide) (by decide) (by decide)

/-! ## Claim C2 -/

/-- C2 counterexample: a record classified as Removed (same recordId, now
redacted) whose previous record never carried a valid rule DOES emit a
ChangeEvent when its own content still parses as a rule — the pass pushes a
Removed change with the newly parsed rule. -/
theorem removed_invalid_previous_can_emit :
    classify (getState exListWithInvalid.state RULE_USER "rule:@x:example.org")
        exRedactedParseable = some ChangeType.Removed
    ∧ exPrevInvalid.unsignedRule = none
    ∧ (processEvent exListWithInvalid exRedactedParseable).2 ≠ [] := by
  refine ⟨by decide, by decide, by decide⟩

/-- C2 (amended): for a record classified as Removed whose previous record
never carried a valid rule, no event is emitted provided the incoming
record has content that does not parse as a valid rule (in particular, a
never-valid record followed by another never-valid record on the same
subkey produces no events). -/
theorem removed_invalid_previous_no_emit (s : BanListState) (e p : RawEvent) (kind : String)
    (hsk : e.state_key ≠ "")
    (hk : kindOfType e.type = some kind)
    (hp : getState s.state kind e.state_key = some p)
    (hnorule : p.unsignedRule = none)
    (hrem : classify (some p) e = some ChangeType.Removed)
    (hnp : parsesE e = false) :
    (processEvent s e).2 = [] := by
  rw [processEvent_rule s e kind hsk hk]
  by_cases hd : obsoleteAgainst kind e.type p.type = true
  · rw [processRuleEvent_discard s kind e p hp hd]
  · have hobs : obsoleteAgainst kind e.type p.type = false := by
      revert hd; cases obsoleteAgainst kind e.type p.type <;> simp
    have hdisp : processRuleEvent s kind e
        = parsePhase s { s with state := setState s.state kind e.state_key e } kind
            (some p) (classify (some p) e) e := by
      unfold processRuleEvent
      simp [hp, hobs, hrem, hnorule]
    rw [hdisp, parsePhase_of_not_parses _ _ _ _ _ _ hnp]

theorem removed_invalid_previous_no_emit_witness :
    (processEvent exListWithInvalid exInvalidAgain).2 = [] :=
  removed_invalid_previous_no_emit exListWithInvalid exInvalidAgain exPrevInvalid RULE_USER
    (by decide) (by decide) (by decide) (by decide) (by decide) (by decide)

/-! ## Claim C3 -/

/-- C3: running the reconciliation pass twice in succession over the same
unchanged record set yields an empty ChangeEvent sequence on the second
run.  The hypotheses state what a record set returned by the room-state
store satisfies: state events are unique per (type, state key), wire events
carry no pre-attached parsed rule, and a redacted state event has had its
content stripped (does not still parse as a rule). -/
theorem updateList_idempotent (s0 : BanListState) (evs : List RawEvent)
    (hdist : evs.Pairwise fun a b => a.type ≠ b.type ∨ a.state_key ≠ b.state_key)
    (hwire : ∀ x ∈ evs, x.unsignedRule = none)
    (hredstrip : ∀ x ∈ evs, x.redactedBecauseSender.isSome = true → parsesE x = false) :
    (updateList (updateList s0 evs).1 evs).2 = [] := by
  unfold updateList
  exact (run_noop evs (processList s0 evs).1 hwire hredstrip
    (fun x hx kind hk hsk => run_establishes evs s0 hdist hredstrip x hx kind hk hsk)).1

theorem updateList_idempotent_witness :
    (updateList (updateList emptyBanList [exEventA, exEventLegacy, exInvalidAgain]).1
      [exEventA, exEventLegacy, exInvalidAgain]).2 = [] :=
  updateList_idempotent emptyBanList [exEventA, exEventLegacy, exInvalidAgain]
    (by decide) (by decide) (by decide)

/-! ## Claim C4 -/

/-- C4: when the stored record reappears (same recordId and type) now
carrying redaction info, and the previous record had a valid parsed rule,
the pass emits exactly one Removed ChangeEvent whose rule is the former
rule from the previous record and whose sender is the redacting actor. -/
theorem hard_delete_emits_removed (s : BanListState) (e p : RawEvent) (kind : String)
    (actor : String) (r : ListRule)
    (hsk : e.state_key ≠ "")
    (hk : kindOfType e.type = some kind)
    (hp : getState s.state kind e.state_key = some p)
    (hid : p.event_id = e.event_id)
    (hty : p.type = e.type)
    (hred : e.redactedBecauseSender = some actor)
    (hrule : p.unsignedRule = some r) :
    (processEvent s e).2 = [⟨ChangeType.Removed, e, actor, r, some p⟩] := by
  rw [processEvent_rule s e kind hsk hk]
  have hobs : obsoleteAgainst kind e.type p.type = false := by
    rw [hty, obsoleteAgainst_eq hk]
    simp
  have hreds : e.redactedBecauseSender.isSome = true := by rw [hred]; rfl
  have hcl : classify (some p) e = some ChangeType.Removed := by
    have hcl' : (if p.event_id = e.event_id then
          (if e.redactedBecauseSender.isSome = true then some ChangeType.Removed else none)
        else
          (if contentEmptyJS e.content = true then some ChangeType.Removed
            else some ChangeType.Modified)) = some ChangeType.Removed := by
      rw [if_pos hid, if_pos hreds]
    exact hcl'
  have hsender : removalSender e = actor := by unfold removalSender; rw [hred]
  unfold processRuleEvent
  simp [hp, hobs, hcl, hrule, hsender]

theorem hard_delete_emits_removed_witness :
    (processEvent exListWithStd exRedactionOfStd).2
      = [⟨ChangeType.Removed, exRedactionOfStd, "@admin:example.org",
          ⟨"@bad:example.org", "ban", "spam", RULE_USER⟩, some exStoredStd⟩] :=
  hard_delete_emits_removed exListWithStd exRedactionOfStd exStoredStd RULE_USER
    "@admin:example.org" ⟨"@bad:example.org", "ban", "spam", RULE_USER⟩
    (by decide) (by decide) (by decide) (by decide) (by decide) (by decide) (by decide)

/-! ## Claim C5 -/

/-- C5: when the previous record for a (kind, subkey) had a valid parsed
rule and the incoming record (of authority not lower than the stored type,
i.e. past the authority check) has a different recordId and empty content,
the pass emits exactly one Removed ChangeEvent carrying the prior rule,
with the previous record attached as previousState. -/
theorem soft_delete_emits_removed (s : BanListState) (e p : RawEvent) (kind : String)
    (r : ListRule)
    (hsk : e.state_key ≠ "")
    (hk : kindOfType e.type = some kind)
    (hp : getState s.state kind e.state_key = some p)
    (hid : ¬ p.event_id = e.event_id)
    (hempty : contentEmptyJS e.content = true)
    (hrule : p.unsignedRule = some r)
    (hauth : ¬ indexOfJS (ruleTypesOf kind) p.type < indexOfJS (ruleTypesOf kind) e.type) :
    (processEvent s e).2 = [⟨ChangeType.Removed, e, removalSender e, r, some p⟩] := by
  rw [processEvent_rule s e kind hsk hk]
  have hobs : obsoleteAgainst kind e.type p.type = false := by
    rw [obsoleteAgainst_eq hk]
    exact decide_eq_false hauth
  have hcl : classify (some p) e = some ChangeType.Removed := by
    have hcl' : (if p.event_id = e.event_id then
          (if e.redactedBecauseSender.isSome = true then some ChangeType.Removed else none)
        else
          (if contentEmptyJS e.content = true then some ChangeType.Removed
            else some ChangeType.Modified)) = some ChangeType.Removed := by
      rw [if_neg hid, if_pos hempty]
    exact hcl'
  unfold processRuleEvent
  simp [hp, hobs, hcl, hrule]

theorem soft_delete_emits_removed_witness :
    (processEvent exListWithStd exSoftDelete).2
      = [⟨ChangeType.Removed, exSoftDelete, removalSender exSoftDelete,
          ⟨"@bad:example.org", "ban", "spam", RULE_USER⟩, some exStoredStd⟩] :=
  soft_delete_emits_removed exListWithStd exSoftDelete exStoredStd RULE_USER
    ⟨"@bad:example.org", "ban", "spam", RULE_USER⟩
    (by decide) (by decide) (by decide) (by decide) (by decide) (by decide) (by decide)

/-! ## Claim C8 -/

/-- C8: for every kind, the rule query accessors return only rules whose
recommendation equals the ban recommendation; valid rules with any other
recommendation present in the state table are never surfaced. -/
theorem accessors_ban_only (s : BanListState) :
    (∀ r ∈ serverRules s, r.recommendation = RECOMMENDATION_BAN)
    ∧ (∀ r ∈ userRules s, r.recommendation = RECOMMENDATION_BAN)
    ∧ (∀ r ∈ roomRules s, r.recommendation = RECOMMENDATION_BAN)
    ∧ (∀ r ∈ allRules s, r.recommendation = RECOMMENDATION_BAN) := by
  have hkind : ∀ kind r, r ∈ rulesOfKind s kind → r.recommendation = RECOMMENDATION_BAN := by
    intro kind r hr
    unfold rulesOfKind at hr
    cases hl : lookupA s.state kind with
    | none => rw [hl] at hr; exact absurd hr (List.not_mem_nil r)
    | some tbl =>
      rw [hl] at hr
      obtain ⟨ev, hev, hfr⟩ := List.mem_filterMap.mp hr
      cases hur : ev.unsignedRule with
      | none => rw [hur] at hfr; exact absurd hfr (by simp)
      | some rule =>
        rw [hur] at hfr
        have hfr' : (if rule.kind = kind ∧ rule.recommendation = RECOMMENDATION_BAN
            then some rule else none) = some r := hfr
        by_cases hcond : rule.kind = kind ∧ rule.recommendation = RECOMMENDATION_BAN
        · rw [if_pos hcond] at hfr'
          obtain rfl : rule = r := Option.some.inj hfr'
          exact hcond.2
        · rw [if_neg hcond] at hfr'
          exact absurd hfr' (by simp)
  refine ⟨fun r hr => hkind RULE_SERVER r hr, fun r hr => hkind RULE_USER r hr,
    fun r hr => hkind RULE_ROOM r hr, fun r hr => ?_⟩
  unfold allRules at hr
  rcases List.mem_append.mp hr with hr' | hr'
  · rcases List.mem_append.mp hr' with h2 | h2
    · exact hkind RULE_SERVER r h2
    · exact hkind RULE_USER r h2
  · exact hkind RULE_ROOM r hr'

def exBanRule : ListRule := ⟨"bad.example.org", "ban", "spam", RULE_SERVER⟩

def exAdviceRule : ListRule := ⟨"meh.example.org", "advice", "meh", RULE_SERVER⟩

def exServerEvBan : RawEvent :=
  ⟨RULE_SERVER, "rule:bad.example.org", "$s1", "@mod:example.org", none, none, some exBanRule⟩

def exServerEvAdvice : RawEvent :=
  ⟨RULE_SERVER, "rule:meh.example.org", "$s2", "@mod:example.org", none, none, some exAdviceRule⟩

/-- A state table holding a ban rule and a valid non-ban rule. -/
def exListMixed : BanListState :=
  ⟨none, [(RULE_SERVER, [("rule:bad.example.org", exServerEvBan),
    ("rule:meh.example.org", exServerEvAdvice)])]⟩

theorem accessors_ban_only_witness :
    exBanRule.recommendation = RECOMMENDATION_BAN
    ∧ exBanRule ∈ serverRules exListMixed
    ∧ exAdviceRule ∉ serverRules exListMixed :=
  ⟨(accessors_ban_only exListMixed).1 exBanRule (by decide), by decide, by decide⟩

/-! ## Claims C9 and C10 -/

def isFailure : LookupResult → Bool
  | LookupResult.failure _ => true
  | _ => false

theorem firstLookupFailure_eq_none (lookup : String → String → LookupResult) (sk : String)
    (ts : List String) (h : ∀ t ∈ ts, isFailure (lookup t sk) = false) :
    firstLookupFailure lookup sk ts = none := by
  induction ts with
  | nil => rfl
  | cons t ts ih =>
    have ht := h t (by simp)
    cases hl : lookup t sk with
    | failure err => rw [hl] at ht; exact absurd ht (by simp [isFailure])
    | found =>
      simp only [firstLookupFailure, hl]
      exact ih fun x hx => h x (by simp [hx])
    | notFound =>
      simp only [firstLookupFailure, hl]
      exact ih fun x hx => h x (by simp [hx])

theorem firstLookupFailure_some_of (lookup : String → String → LookupResult) (sk : String)
    (ts : List String) (t0 : String) (err : String)
    (ht : t0 ∈ ts) (h : lookup t0 sk = LookupResult.failure err) :
    ∃ e2, firstLookupFailure lookup sk ts = some e2 := by
  induction ts with
  | nil => exact absurd ht (List.not_mem_nil t0)
  | cons t ts ih =>
    cases hl : lookup t sk with
    | failure e => exact ⟨e, by simp only [firstLookupFailure, hl]⟩
    | found =>
      rcases List.mem_cons.mp ht with rfl | hmem
      · rw [h] at hl; exact absurd hl (by simp)
      · obtain ⟨e2, he2⟩ := ih hmem
        exact ⟨e2, by simp only [firstLookupFailure, hl]; exact he2⟩
    | notFound =>
      rcases List.mem_cons.mp ht with rfl | hmem
      · rw [h] at hl; exact absurd hl (by simp)
      · obtain ⟨e2, he2⟩ := ih hmem
        exact ⟨e2, by simp only [firstLookupFailure, hl]; exact he2⟩

theorem firstWriteFailure_eq_none (writeErr : String → String → Option String) (sk : String)
    (ts : List String) (h : ∀ t ∈ ts, writeErr t sk = none) :
    firstWriteFailure writeErr sk ts = none := by
  induction ts with
  | nil => rfl
  | cons t ts ih =>
    simp only [firstWriteFailure, h t (by simp)]
    exact ih fun x hx => h x (by simp [hx])

theorem firstWriteFailure_some_of (writeErr : String → String → Option String) (sk : String)
    (ts : List String) (t0 : String) (err : String)
    (ht : t0 ∈ ts) (h : writeErr t0 sk = some err) :
    ∃ e2, firstWriteFailure writeErr sk ts = some e2 := by
  induction ts with
  | nil => exact absurd ht (List.not_mem_nil t0)
  | cons t ts ih =>
    cases hl : writeErr t sk with
    | some e => exact ⟨e, by simp only [firstWriteFailure, hl]⟩
    | none =>
      rcases List.mem_cons.mp ht with rfl | hmem
      · rw [h] at hl; exact absurd hl (by simp)
      · obtain ⟨e2, he2⟩ := ih hmem
        exact ⟨e2, by simp only [firstWriteFailure, hl]; exact he2⟩

/-- C9: `unbanEntity` returns true iff at least one alias type for the kind
holds a record at `rule:<entity>`, issuing a clearing write (empty content)
for exactly those alias types; all-404 lookups return false with no writes;
a lookup failure other than 404 propagates as an error, as does a write
failure. -/
theorem unbanEntity_spec (lookup : String → String → LookupResult)
    (writeErr : String → String → Option String) (ruleType entity : String) :
    ((∀ t ∈ typesToCheckFor ruleType, isFailure (lookup t ("rule:" ++ entity)) = false) →
      (∀ t ∈ typesToCheckFor ruleType, writeErr t ("rule:" ++ entity) = none) →
      unbanEntity lookup writeErr ruleType entity
        = Except.ok
            ⟨((typesToCheckFor ruleType).filter fun t =>
                isFound (lookup t ("rule:" ++ entity))).map
              fun t => (t, "rule:" ++ entity, emptyContent),
              !((typesToCheckFor ruleType).filter fun t =>
                isFound (lookup t ("rule:" ++ entity))).isEmpty⟩)
    ∧ ((∀ t ∈ typesToCheckFor ruleType,
          lookup t ("rule:" ++ entity) = LookupResult.notFound) →
      unbanEntity lookup writeErr ruleType entity = Except.ok ⟨[], false⟩)
    ∧ (∀ t0 ∈ typesToCheckFor ruleType, ∀ err,
        lookup t0 ("rule:" ++ entity) = LookupResult.failure err →
        ∃ err2, unbanEntity lookup writeErr ruleType entity = Except.error err2)
    ∧ ((∀ t ∈ typesToCheckFor ruleType, isFailure (lookup t ("rule:" ++ entity)) = false) →
      ∀ t0 ∈ typesToCheckFor ruleType,
        lookup t0 ("rule:" ++ entity) = LookupResult.found →
        ∀ err, writeErr t0 ("rule:" ++ entity) = some err →
        ∃ err2, unbanEntity lookup writeErr ruleType entity = Except.error err2) := by
  refine ⟨?_, ?_, ?_, ?_⟩
  · intro hl hw
    have hfl := firstLookupFailure_eq_none lookup ("rule:" ++ entity)
      (typesToCheckFor ruleType) hl
    by_cases hemp : ((typesToCheckFor ruleType).filter fun t =>
        isFound (lookup t ("rule:" ++ entity))).isEmpty = true
    · have hfil := List.isEmpty_iff.mp hemp
      simp only [unbanEntity, hfl, hfil]
      simp
    · have hempf : ((typesToCheckFor ruleType).filter fun t =>
          isFound (lookup t ("rule:" ++ entity))).isEmpty = false := by
        revert hemp
        cases ((typesToCheckFor ruleType).filter fun t =>
          isFound (lookup t ("rule:" ++ entity))).isEmpty <;> simp
      have hwf := firstWriteFailure_eq_none writeErr ("rule:" ++ entity)
        ((typesToCheckFor ruleType).filter fun t => isFound (lookup t ("rule:" ++ entity)))
        (fun t ht => hw t (List.mem_of_mem_filter ht))
      simp only [unbanEntity, hfl, hwf, hempf]
      simp [hempf]
  · intro hnf
    have hfl := firstLookupFailure_eq_none lookup ("rule:" ++ entity)
      (typesToCheckFor ruleType) (fun t ht => by rw [hnf t ht]; rfl)
    have hfil : ((typesToCheckFor ruleType).filter fun t =>
        isFound (lookup t ("rule:" ++ entity))) = [] := by
      rw [List.filter_eq_nil_iff]
      intro t ht
      rw [hnf t ht]
      simp [isFound]
    simp only [unbanEntity, hfl, hfil]
    simp
  · intro t0 ht0 err herr
    obtain ⟨e2, he2⟩ := firstLookupFailure_some_of lookup ("rule:" ++ entity)
      (typesToCheckFor ruleType) t0 err ht0 herr
    exact ⟨e2, by simp only [unbanEntity, he2]⟩
  · intro hl t0 ht0 hfound err herr
    have hmemfil : t0 ∈ ((typesToCheckFor ruleType).filter fun t =>
        isFound (lookup t ("rule:" ++ entity))) := by
      rw [List.mem_filter]
      exact ⟨ht0, by rw [hfound]; rfl⟩
    obtain ⟨e2, he2⟩ := firstWriteFailure_some_of writeErr ("rule:" ++ entity)
      ((typesToCheckFor ruleType).filter fun t => isFound (lookup t ("rule:" ++ entity)))
      t0 err hmemfil herr
    have hempf : ((typesToCheckFor ruleType).filter fun t =>
        isFound (lookup t ("rule:" ++ entity))).isEmpty = false := by
      cases hfl : ((typesToCheckFor ruleType).filter fun t =>
          isFound (lookup t ("rule:" ++ entity))) with
      | nil => rw [hfl] at hmemfil; exact absurd hmemfil (List.not_mem_nil t0)
      | cons a l => rfl
    have hfl := firstLookupFailure_eq_none lookup ("rule:" ++ entity)
      (typesToCheckFor ruleType) hl
    refine ⟨e2, ?_⟩
    simp only [unbanEntity, hfl, hempf, he2]
    simp

def exLookupRoomAlias : String → String → LookupResult :=
  fun t _ => if t = "m.room.rule.user" then LookupResult.found else LookupResult.notFound

theorem unbanEntity_spec_witness :
    unbanEntity exLookupRoomAlias (fun _ _ => none) RULE_USER "@bad:example.org"
      = Except.ok ⟨[("m.room.rule.user", "rule:@bad:example.org", emptyContent)], true⟩ := by
  have h := (unbanEntity_spec exLookupRoomAlias (fun _ _ => none)
    RULE_USER "@bad:example.org").1 (by decide) (fun t ht => rfl)
  exact h.trans (congrArg Except.ok (by decide))

/-- C10: when `unbanEntity` is called with a ruleType that is not one of the
three normalised kinds, it does not expand to an alias family and does not
fail: it checks exactly that single type, and clears exactly it when a
record is found (returning true), or returns false on a 404. -/
theorem unbanEntity_unknown_type (lookup : String → String → LookupResult)
    (writeErr : String → String → Option String) (ruleType entity : String)
    (h1 : ruleType ≠ RULE_USER) (h2 : ruleType ≠ RULE_ROOM) (h3 : ruleType ≠ RULE_SERVER) :
    typesToCheckFor ruleType = [ruleType]
    ∧ (lookup ruleType ("rule:" ++ entity) = LookupResult.found →
        writeErr ruleType ("rule:" ++ entity) = none →
        unbanEntity lookup writeErr ruleType entity
          = Except.ok ⟨[(ruleType, "rule:" ++ entity, emptyContent)], true⟩)
    ∧ (lookup ruleType ("rule:" ++ entity) = LookupResult.notFound →
        unbanEntity lookup writeErr ruleType entity = Except.ok ⟨[], false⟩) := by
  have htc : typesToCheckFor ruleType = [ruleType] := by
    unfold typesToCheckFor
    rw [if_neg h1, if_neg h3, if_neg h2]
  refine ⟨htc, ?_, ?_⟩
  · intro hf hw
    simp only [unbanEntity, htc]
    simp [firstLookupFailure, firstWriteFailure, hf, hw, isFound]
  · intro hnf
    simp only [unbanEntity, htc]
    simp [firstLookupFailure, hnf, isFound]

theorem unbanEntity_unknown_type_witness :
    typesToCheckFor "org.matrix.mjolnir.rule.user" = ["org.matrix.mjolnir.rule.user"]
    ∧ unbanEntity (fun _ _ => LookupResult.found) (fun _ _ => none)
        "org.matrix.mjolnir.rule.user" "@bad:example.org"
      = Except.ok ⟨[("org.matrix.mjolnir.rule.user", "rule:@bad:example.org", emptyContent)],
          true⟩ := by
  obtain ⟨ha, hb, hc⟩ := unbanEntity_unknown_type (fun _ _ => LookupResult.found)
    (fun _ _ => none) "org.matrix.mjolnir.rule.user" "@bad:example.org"
    (by decide) (by decide) (by decide)
  exact ⟨ha, hb rfl rfl⟩

/-! ## Claims C6 and C7 -/

/-- C6: evaluating the coalescer at the scenario of the claim — `notify("m1")`,
then `notify("m2")` within one poll interval, then silence — shows the wait
loop does NOT exit one poll interval after the last notification: because
the loop compares the latest marker against its own *starting* marker
(`latestEventId !== eventId`), a changed marker keeps it polling until the
maximum window, so the batch fires at 3000 ms, not by 400 ms. -/
theorem coalescer_two_markers_full_window :
    checkBatch "m1" (fun _ => some "m2")
      = ⟨15, 3000, ⟨false, none⟩, 1⟩
    ∧ ¬ ((checkBatch "m1" (fun _ => some "m2")).exitTimeMS ≤ 2 * waitPeriodMS) := by
  exact ⟨by decide, by decide⟩

/-- C7: every wait loop exits, resets the batcher to idle and fires exactly
one batch signal no later than the maximum window after the loop started,
whatever the notification pattern; and a notify while waiting only
overwrites the tracked marker without spawning a second loop. -/
theorem coalescer_bounded_latency (eventId : String) (latestAt : Nat → Option String)
    (b : BatcherState) (m : String) :
    (checkBatch eventId latestAt).exitTimeMS ≤ maxWaitMS
    ∧ (checkBatch eventId latestAt).stateAfter = ⟨false, none⟩
    ∧ (checkBatch eventId latestAt).batchEmits = 1
    ∧ (b.isWaiting = true → addToBatch b m = ({ b with latestEventId := some m }, false)) := by
  refine ⟨?_, rfl, rfl, ?_⟩
  · have haux : ∀ fuel i, i ≤ 15 → checkBatchIterAux eventId latestAt fuel i ≤ 15 := by
      intro fuel
      induction fuel with
      | zero =>
        intro i hi
        exact hi
      | succ f ih =>
        intro i hi
        by_cases hc : i * waitPeriodMS < maxWaitMS ∧ latestAt i ≠ some eventId
        · have hii : i + 1 ≤ 15 := by
            have h200 : i * 200 < 3000 := hc.1
            omega
          calc checkBatchIterAux eventId latestAt (f + 1) i
              = checkBatchIterAux eventId latestAt f (i + 1) := by
                simp only [checkBatchIterAux, if_pos hc]
            _ ≤ 15 := ih (i + 1) hii
        · calc checkBatchIterAux eventId latestAt (f + 1) i
              = i := by simp only [checkBatchIterAux, if_neg hc]
            _ ≤ 15 := hi
    have hiters : checkBatchIters eventId latestAt ≤ 15 :=
      haux maxWaitMS 1 (by omega)
    show checkBatchIters eventId latestAt * waitPeriodMS ≤ maxWaitMS
    calc checkBatchIters eventId latestAt * waitPeriodMS
        ≤ 15 * waitPeriodMS := Nat.mul_le_mul_right _ hiters
      _ = maxWaitMS := by decide
  · intro hw
    unfold addToBatch
    rw [if_pos hw]

theorem coalescer_bounded_latency_witness :
    (checkBatch "m1" (fun i => some ("x" ++ toString i))).exitTimeMS ≤ maxWaitMS
    ∧ (checkBatch "m1" (fun i => some ("x" ++ toString i))).stateAfter = ⟨false, none⟩
    ∧ (checkBatch "m1" (fun i => some ("x" ++ toString i))).batchEmits = 1
    ∧ addToBatch ⟨true, some "a"⟩ "b" = (⟨true, some "b"⟩, false) := by
  obtain ⟨hA, hB, hC, hD⟩ := coalescer_bounded_latency "m1"
    (fun i => some ("x" ++ toString i)) ⟨true, some "a"⟩ "b"
  exact ⟨hA, hB, hC, hD rfl⟩

end BanListModel
